import Mathlib

/-!
Verification development for the automated-countries-xml repository.

The Python sources embedded here:
  * `src/src/improved_xml_generator.py` — class `ImprovedCountryXMLGenerator`
    (`fetch_country_data`, `extract_xml_data`, `generate_formatted_xml`,
    `generate_countries_xml`);
  * `src/src/simple_xml_generator.py` — class `CountryXMLGenerator`
    (`extract_xml_data`, `create_xml_element`, `generate_xml`);
  * `src/src/automated_generator.py` — class `AutomatedCountryGenerator`
    (`test_api_connectivity`, `generate_xml_with_validation`).

Python dictionaries preserve insertion order, so JSON-object-valued fields
(`nativeName`, `currencies`) are embedded as ordered association lists;
`list(d.keys())[0]` corresponds to the first entry of the list.  Missing JSON
keys are embedded as `Option.none`; `d.get(k, default)` is `Option.getD`.
Network effects are embedded as an oracle mapping the requested URL to the
outcome of the `session.get`/`raise_for_status`/`response.json()` sequence.
File-system effects are embedded by returning the path/content pair that the
Python code would write.
-/

/-- One entry of the `nativeName` mapping of the REST Countries payload:
a JSON object with optional `official` and `common` string fields. -/
structure NativeEntry where
  official : Option String
  common : Option String
deriving Repr, DecidableEq

/-- The `name` object of a country record: optional `official`, `common`
and `nativeName` fields; `nativeName` maps language codes to entries. -/
structure NameData where
  official : Option String
  common : Option String
  nativeName : Option (List (String × NativeEntry))
deriving Repr, DecidableEq

/-- One entry of the `currencies` mapping: a JSON object with optional
`name` and `symbol` string fields. -/
structure CurrencyInfo where
  name : Option String
  symbol : Option String
deriving Repr, DecidableEq

/-- A raw country record as returned by the REST Countries API, restricted to
the keys the generators read (`name`, `currencies`, `cca2`).  Other keys of the
payload (`capital`, `region`, ...) are never consulted by the extraction code
and are omitted from the embedding. -/
structure CountryRecord where
  name : Option NameData
  currencies : Option (List (String × CurrencyInfo))
  cca2 : Option String
deriving Repr, DecidableEq

/-- The nested `currency` sub-record of the dictionary returned by
`extract_xml_data`: fields `code`, `name`, `symbol`. -/
structure CurrencyXml where
  code : String
  name : String
  symbol : String
deriving Repr, DecidableEq

/-- The dictionary returned by `extract_xml_data`: keys `code`,
`original_name`, `common_name`, `local_name`, `currency`. -/
structure ExtractedCountry where
  code : String
  original_name : String
  common_name : String
  local_name : String
  currency : CurrencyXml
deriving Repr, DecidableEq

/-- Lookup in an insertion-ordered association list; embeds Python dictionary
indexing `d[k]` / membership `k in d` (`some` iff the key is present). -/
def alistLookup {α : Type} (m : List (String × α)) (k : String) : Option α :=
  match m with
  | [] => none
  | (k2, v) :: rest => if k2 = k then some v else alistLookup rest k

/-- The `language_priority` constant of
`ImprovedCountryXMLGenerator.extract_xml_data` (line 64). -/
def language_priority : List String := ["hin", "jpn", "deu", "fra", "spa", "ara", "zho"]

/-- The `for lang in language_priority: ... break` loop of
`ImprovedCountryXMLGenerator.extract_xml_data` (lines 66-69): the first
priority language code present in `native_names` contributes its
`official` value (empty string if that key is absent); if no priority code
is present the loop leaves `local_name` empty. -/
def priorityLoop (langs : List String) (native_names : List (String × NativeEntry)) : String :=
  match langs with
  | [] => ""
  | lang :: rest =>
    match alistLookup native_names lang with
    | some entry => entry.official.getD ""
    | none => priorityLoop rest native_names

/-- `ImprovedCountryXMLGenerator.extract_xml_data` (lines 54-93).  Note the
fallback on line 72 is guarded by `if not local_name and native_names:`, so it
also fires when a priority language was found but its `official` value is the
empty string. -/
def extract_xml_data (country_data : CountryRecord) : ExtractedCountry :=
  let name_data := country_data.name.getD ⟨none, none, none⟩
  let currencies := country_data.currencies.getD []
  let native_names := name_data.nativeName.getD []
  let local_name0 := priorityLoop language_priority native_names
  let local_name :=
    if local_name0 = "" then
      match native_names with
      | (_, entry) :: _ => entry.official.getD ""
      | [] => local_name0
    else local_name0
  let currency_info :=
    match currencies with
    | [] => { code := "", name := "", symbol := "" : CurrencyXml }
    | (currency_code, currency_data) :: _ =>
      { code := currency_code
        name := currency_data.name.getD ""
        symbol := currency_data.symbol.getD "" }
  { code := country_data.cca2.getD ""
    original_name := name_data.official.getD ""
    common_name := name_data.common.getD ""
    local_name := local_name
    currency := currency_info }

/-- `CountryXMLGenerator.extract_xml_data` of `simple_xml_generator.py`
(lines 69-116): an `if "hin" ... elif "jpn" ... elif native_names` chain (no
fall-through when the chosen `official` value is empty), then the same
first-currency extraction. -/
def extract_xml_data_simple (country_data : CountryRecord) : ExtractedCountry :=
  let name_data := country_data.name.getD ⟨none, none, none⟩
  let currencies := country_data.currencies.getD []
  let native_names := name_data.nativeName.getD []
  let local_name :=
    match alistLookup native_names "hin" with
    | some entry => entry.official.getD ""
    | none =>
      match alistLookup native_names "jpn" with
      | some entry => entry.official.getD ""
      | none =>
        match native_names with
        | (_, entry) :: _ => entry.official.getD ""
        | [] => ""
  let currency_info :=
    match currencies with
    | [] => { code := "", name := "", symbol := "" : CurrencyXml }
    | (currency_code, currency_data) :: _ =>
      { code := currency_code
        name := currency_data.name.getD ""
        symbol := currency_data.symbol.getD "" }
  { code := country_data.cca2.getD ""
    original_name := name_data.official.getD ""
    common_name := name_data.common.getD ""
    local_name := local_name
    currency := currency_info }

/-!  The improved formatter (`generate_formatted_xml`, lines 95-140). -/

/-- The twelve lines appended per country by the loop of
`generate_formatted_xml` (lines 107-124): the `<Countries>` block template
with the extracted values interpolated, followed by the empty separator
line. -/
def countryBlockLines (x : ExtractedCountry) : List String :=
  ["  <Countries>",
   "    <Code>" ++ x.code ++ "</Code>",
   "    <OriginalName>" ++ x.original_name ++ "</OriginalName>",
   "    <CommonName>" ++ x.common_name ++ "</CommonName>",
   "    <LocalName>" ++ x.local_name ++ "</LocalName>",
   "    <OfficialCurrency>",
   "      <Code>" ++ x.currency.code ++ "</Code>",
   "      <Name>" ++ x.currency.name ++ "</Name>",
   "      <Symbol>" ++ x.currency.symbol ++ "</Symbol>",
   "    </OfficialCurrency>",
   "  </Countries>",
   ""]

/-- The full `xml_lines` list built by `generate_formatted_xml`: declaration,
`<CountriesCollection>` open, one block per record (extraction applied inside
the loop), closing root element. -/
def improved_xml_lines (countries_data : List CountryRecord) : List String :=
  ["<?xml version=\"1.0\" encoding=\"UTF-8\"?>", "<CountriesCollection>"]
    ++ (countries_data.map (fun cd => countryBlockLines (extract_xml_data cd))).flatten
    ++ ["</CountriesCollection>"]

/-- Python `"\n".join(lines)` (line 130). -/
def joinLines : List String → String
  | [] => ""
  | [l] => l
  | l :: l2 :: ls => l ++ "\n" ++ joinLines (l2 :: ls)

/-- The `final_xml` string assembled by `generate_formatted_xml`
(lines 102-130). -/
def final_xml (countries_data : List CountryRecord) : String :=
  joinLines (improved_xml_lines countries_data)

/-!  File-system model for `os.makedirs(os.path.dirname(output_file),
exist_ok=True)` (line 133 of the improved generator, lines 193-194 of the
simple one). -/

/-- Python exceptions that the embedded code can propagate. -/
inductive PyExc where
  /-- `FileNotFoundError`, as raised by CPython `os.makedirs("")`. -/
  | fileNotFound
  /-- Any exception that is not a `requests.exceptions.RequestException`,
  e.g. a JSON decode error from `response.json()` in environments where that
  error is not a `RequestException` subclass. -/
  | nonRequestExc
deriving Repr, DecidableEq

/-- POSIX `os.path.dirname`: the part of the path before the final slash,
with trailing slashes stripped unless the head consists only of slashes.
In particular `dirname "file.xml" = ""`. -/
def dirname (p : String) : String :=
  let cs := p.data
  let tailLen := (cs.reverse.takeWhile (fun c => c ≠ '/')).length
  let head := cs.take (cs.length - tailLen)
  let head2 :=
    if head ≠ [] ∧ ¬ head.all (fun c => c = '/') then
      (head.reverse.dropWhile (fun c => c = '/')).reverse
    else head
  String.mk head2

/-- CPython `os.makedirs(d, exist_ok=True)` on a writable file system:
succeeds for every non-empty path, raises `FileNotFoundError` for the empty
path (`os.makedirs("")` fails before any directory is created). -/
def makedirs (d : String) : Except PyExc Unit :=
  if d = "" then .error .fileNotFound else .ok ()

/-- `ImprovedCountryXMLGenerator.generate_formatted_xml` (lines 95-140):
assembles `final_xml`, ensures the output directory exists, writes the file
and returns the output path.  A successful call is embedded as the pair
(returned path, content written to that path); a raised exception as
`.error`. -/
def generate_formatted_xml (countries_data : List CountryRecord) (output_file : String) :
    Except PyExc (String × String) :=
  let content := final_xml countries_data
  match makedirs (dirname output_file) with
  | .error e => .error e
  | .ok _ => .ok (output_file, content)

/-!  The fetcher (`fetch_country_data`, lines 30-52 of the improved
generator; the simple generator's copy, lines 37-67, is identical). -/

/-- Outcome of one `session.get(url)` / `raise_for_status()` /
`response.json()` sequence, as seen by the `try` block of
`fetch_country_data`. -/
inductive ApiOutcome where
  /-- HTTP success and a JSON list body: the decoded list of records. -/
  | records (data : List CountryRecord)
  /-- A `requests.exceptions.RequestException` (transport failure, timeout,
  or a non-2xx status raised by `raise_for_status`): caught by the `except`
  clause. -/
  | requestExc
  /-- An exception that is NOT a `requests.exceptions.RequestException`
  (e.g. a JSON decode error in environments where `response.json()` raises a
  plain `json.JSONDecodeError`): not caught by the `except` clause. -/
  | nonRequestExc
deriving Repr, DecidableEq

/-- `self.api_base` (line 26). -/
def api_base : String := "https://restcountries.com/v3.1"

/-- The URL built on line 37: `f"{self.api_base}/name/{country_name}"`. -/
def countryUrl (name : String) : String := api_base ++ "/name/" ++ name

/-- The loop body of `fetch_country_data`: for each name one lookup; a
non-empty result list contributes its first element (`data[0]`, line 43) to
the accumulator; an empty result or a caught `RequestException` skips the
name; any other exception propagates, abandoning the accumulated list.  The
first component records the URLs requested, in order. -/
def fetch_loop (api : String → ApiOutcome) :
    List String → List CountryRecord → List String × Except PyExc (List CountryRecord)
  | [], acc => ([], .ok acc)
  | n :: rest, acc =>
    let url := countryUrl n
    match api url with
    | .records [] =>
      let r := fetch_loop api rest acc
      (url :: r.1, r.2)
    | .records (d :: _) =>
      let r := fetch_loop api rest (acc ++ [d])
      (url :: r.1, r.2)
    | .requestExc =>
      let r := fetch_loop api rest acc
      (url :: r.1, r.2)
    | .nonRequestExc => ([url], .error .nonRequestExc)

/-- `fetch_country_data(country_names)` (lines 30-52): `countries_data = []`
then the per-name loop. -/
def fetch_country_data (api : String → ApiOutcome) (country_names : List String) :
    List String × Except PyExc (List CountryRecord) :=
  fetch_loop api country_names []

/-- `ImprovedCountryXMLGenerator.generate_countries_xml` (lines 142-155):
fetch, return `None` when nothing was fetched (no file written), otherwise
delegate to `generate_formatted_xml`.  `.ok none` embeds the `return None`
path; `.ok (some (path, content))` a written file. -/
def generate_countries_xml (api : String → ApiOutcome) (country_names : List String)
    (output_file : String) : Except PyExc (Option (String × String)) :=
  match (fetch_country_data api country_names).2 with
  | .error e => .error e
  | .ok countries_data =>
    if countries_data = [] then .ok none
    else
      match generate_formatted_xml countries_data output_file with
      | .error e => .error e
      | .ok written => .ok (some written)

/-!  The simple generator's serializer (`generate_xml` of
`simple_xml_generator.py`, lines 135-201).  It builds an ElementTree under a
temporary `root` element, serializes with `ET.tostring`, strips the wrapper
tags with `str.replace`, and prepends the declaration.  The subsequent
minidom pretty-printing block (lines 178-190) always raises
`AttributeError` — `xml.dom.minidom` elements have no `innerHTML`
attribute — which the bare `except Exception` swallows, so the unformatted
`final_xml` of line 175 is what is written. -/

/-- Escaping applied by `xml.etree.ElementTree` to text nodes when
serializing (`_escape_cdata`): `&`, `<`, `>` are replaced by entities. -/
def etEscapeChar (c : Char) : List Char :=
  if c = '&' then "&amp;".data
  else if c = '<' then "&lt;".data
  else if c = '>' then "&gt;".data
  else [c]

/-- ElementTree text-node serialization of a string. -/
def etText (s : String) : String :=
  String.mk (s.data.flatMap etEscapeChar)

/-- Serialization of one leaf element created by `create_xml_element`
(lines 118-133): the text is only set when non-empty (`if text:`), and an
element with no text and no children serializes as `<Tag />`. -/
def etLeaf (tag : String) (text : String) : String :=
  if text = "" then "<" ++ tag ++ " />"
  else "<" ++ tag ++ ">" ++ etText text ++ "</" ++ tag ++ ">"

/-- ElementTree serialization of one `Countries` element built by the loop of
`generate_xml` (lines 149-166). -/
def simple_country_xml (x : ExtractedCountry) : String :=
  "<Countries>"
    ++ etLeaf "Code" x.code
    ++ etLeaf "OriginalName" x.original_name
    ++ etLeaf "CommonName" x.common_name
    ++ etLeaf "LocalName" x.local_name
    ++ "<OfficialCurrency>"
    ++ etLeaf "Code" x.currency.code
    ++ etLeaf "Name" x.currency.name
    ++ etLeaf "Symbol" x.currency.symbol
    ++ "</OfficialCurrency>"
    ++ "</Countries>"

/-- `ET.tostring(root, encoding='unicode')` (line 169): the temporary `root`
element wrapping one `Countries` element per record. -/
def simple_tostring (countries_data : List CountryRecord) : String :=
  "<root>"
    ++ String.join (countries_data.map (fun cd => simple_country_xml (extract_xml_data_simple cd)))
    ++ "</root>"

/-- Python `s.replace(pat, repl)`: left-to-right, non-overlapping
replacement of every occurrence.  Structured with explicit fuel so that the
definition is a structural recursion; `s.length` steps always suffice since
each step consumes at least one character. -/
def pyReplaceFuel (pat repl : List Char) : Nat → List Char → List Char
  | 0, s => s
  | _, [] => []
  | fuel + 1, c :: rest =>
    if pat ≠ [] ∧ pat.isPrefixOf (c :: rest) then
      repl ++ pyReplaceFuel pat repl fuel (rest.drop (pat.length - 1))
    else c :: pyReplaceFuel pat repl fuel rest

/-- Python `s.replace(pat, repl)` on strings. -/
def pyReplace (s pat repl : String) : String :=
  String.mk (pyReplaceFuel pat.data repl.data s.data.length s.data)

/-- `CountryXMLGenerator.generate_xml` (lines 135-201): serialize, strip the
`<root>` wrapper (line 172), prepend the declaration (line 175); the minidom
pretty-print attempt always fails and is swallowed, leaving that string; then
`os.makedirs(os.path.dirname(output_file), exist_ok=True)` and the write. -/
def simple_generate_xml (countries_data : List CountryRecord) (output_file : String) :
    Except PyExc (String × String) :=
  let xml_str := pyReplace (pyReplace (simple_tostring countries_data) "<root>" "") "</root>" ""
  let content := "<?xml version=\"1.0\" encoding=\"UTF-8\"?>\n" ++ xml_str
  match makedirs (dirname output_file) with
  | .error e => .error e
  | .ok _ => .ok (output_file, content)

/-!  A small XML scanner, used to embed the re-parsing self-check of
`automated_generator.py` (`ET.parse` + `findall(".//Countries")`) and the
well-formedness/root-element properties of the spec.  It is a single
left-to-right pass: text outside tags is kept character by character, and
each `<...>` group becomes one markup token. -/

/-- Markup tokens of the scanner. -/
inductive XmlTok where
  /-- Opening tag `<name ...>`. -/
  | elemOpen (name : List Char)
  /-- Closing tag `</name>`. -/
  | elemClose (name : List Char)
  /-- Self-closing tag `<name ... />`. -/
  | elemSelf (name : List Char)
  /-- Declaration / processing instruction `<? ... ?>`. -/
  | procInst
  /-- One character of text content. -/
  | textChar (c : Char)
deriving Repr, DecidableEq

/-- Tag name: the part of the tag body before the first space (our documents
carry no attributes, but ElementTree's `<Tag />` form has one). -/
def tagName (body : List Char) : List Char :=
  body.takeWhile (fun c => c ≠ ' ')

/-- Classify the body of a `<...>` group. -/
def tagToken (body : List Char) : XmlTok :=
  if body.head? = some '?' then .procInst
  else if body.head? = some '/' then .elemClose (tagName (body.drop 1))
  else if body.getLast? = some '/' then .elemSelf (tagName body.dropLast)
  else .elemOpen (tagName body)

/-- The scanner: outside a tag (`none` state) a `<` opens a tag buffer and
any other character is a text token; inside a tag (`some buf` state) a `>`
closes and classifies the buffered body, any other character extends the
buffer.  An unterminated trailing tag yields no token, which never happens
on the generated documents. -/
def tokScan : List Char → Option (List Char) → List XmlTok
  | [], _ => []
  | c :: s, none =>
    if c = '<' then tokScan s (some []) else .textChar c :: tokScan s none
  | c :: s, some buf =>
    if c = '>' then tagToken buf :: tokScan s none else tokScan s (some (buf ++ [c]))

/-- Scan a character list into tokens, starting outside any tag. -/
def tokenize (s : List Char) : List XmlTok :=
  tokScan s none

/-- Text tokens of a string of characters. -/
def textToks (s : List Char) : List XmlTok :=
  s.map .textChar

/-- Does a token open an element of the given name (counting self-closing
elements, as `findall(".//name")` does)? -/
def isElemTok (name : List Char) : XmlTok → Bool
  | .elemOpen n => n = name
  | .elemSelf n => n = name
  | _ => false

/-- Number of elements of the given name in a token stream; on a well-formed
document this is the size of `ElementTree.findall(".//name")` (every element
of that name, at any depth). -/
def countElems (name : List Char) (ts : List XmlTok) : Nat :=
  ts.countP (isElemTok name)

/-- Number of elements that start at nesting depth zero, i.e. the number of
top-level elements of the document, starting from depth `d`. -/
def topCount : List XmlTok → Nat → Nat
  | [], _ => 0
  | .elemOpen _ :: ts, d => (if d = 0 then 1 else 0) + topCount ts (d + 1)
  | .elemSelf _ :: ts, d => (if d = 0 then 1 else 0) + topCount ts d
  | .elemClose _ :: ts, d => topCount ts (d - 1)
  | .procInst :: ts, d => topCount ts d
  | .textChar _ :: ts, d => topCount ts d

/-- Nesting depth after a token stream, starting from depth `d`. -/
def depthAfter : List XmlTok → Nat → Nat
  | [], d => d
  | .elemOpen _ :: ts, d => depthAfter ts (d + 1)
  | .elemSelf _ :: ts, d => depthAfter ts d
  | .elemClose _ :: ts, d => depthAfter ts (d - 1)
  | .procInst :: ts, d => depthAfter ts d
  | .textChar _ :: ts, d => depthAfter ts d

/-- Run the open-tag stack over a token stream: `none` when a closing tag
does not match the innermost open element.  `stackAfter ts [] = some []`
states that tags are balanced, the well-formedness requirement of an XML
parser. -/
def stackAfter : List XmlTok → List (List Char) → Option (List (List Char))
  | [], st => some st
  | .elemOpen n :: ts, st => stackAfter ts (n :: st)
  | .elemClose n :: ts, st =>
    match st with
    | [] => none
    | m :: rest => if n = m then stackAfter ts rest else none
  | .elemSelf _ :: ts, st => stackAfter ts st
  | .procInst :: ts, st => stackAfter ts st
  | .textChar _ :: ts, st => stackAfter ts st

/-!  The automation layer (`automated_generator.py`). -/

/-- `AutomatedCountryGenerator.test_api_connectivity` (lines 64-74):
`requests.get` on the `india` lookup URL plus `raise_for_status`, with every
exception caught and turned into `False`. -/
def test_api_connectivity (api : String → ApiOutcome) : Bool :=
  match api (countryUrl "india") with
  | .records _ => true
  | .requestExc => false
  | .nonRequestExc => false

/-- The `result` dictionary of `generate_xml_with_validation`
(lines 87-94). -/
structure ValidationResult where
  success : Bool
  countries_requested : Nat
  countries_processed : Nat
  output_file : String
  file_size : Option Nat
  errors : List String
  warnings : List String
deriving Repr, DecidableEq

/-- The `str(e)` message attached to `result["errors"]` when an exception is
caught by `generate_xml_with_validation`. -/
def excMessage : PyExc → String
  | .fileNotFound => "[Errno 2] No such file or directory: ''"
  | .nonRequestExc => "response body is not valid JSON"

/-- Model of `ET.parse(path)` + `len(tree.findall(".//Countries"))` (lines
108-110): the parse succeeds when the document's tags are balanced and it
contains no raw `&` (entity references are not modelled — the validated
generator never emits them), and then yields the number of `Countries`
elements. -/
def parseCountriesCount (content : String) : Option Nat :=
  let toks := tokenize content.data
  if stackAfter toks [] = some [] ∧ content.data.all (fun c => c ≠ '&') then
    some (countElems "Countries".data toks)
  else none

/-- `AutomatedCountryGenerator.generate_xml_with_validation` (lines 76-130):
connectivity probe, generation, re-parse of the written file, counts,
missing-country warning; every exception caught into `result["errors"]`. -/
def generate_xml_with_validation (api : String → ApiOutcome) (countries : List String)
    (output_file : String) : ValidationResult :=
  let base : ValidationResult :=
    { success := false
      countries_requested := countries.length
      countries_processed := 0
      output_file := output_file
      file_size := none
      errors := []
      warnings := [] }
  if test_api_connectivity api = false then
    { base with errors := ["API connectivity test failed"] }
  else
    match generate_countries_xml api countries output_file with
    | .error e => { base with errors := [excMessage e] }
    | .ok none => { base with errors := ["XML file was not created"] }
    | .ok (some (_, content)) =>
      match parseCountriesCount content with
      | none => { base with errors := ["XML parse error"] }
      | some n =>
        { base with
          success := true
          countries_processed := n
          file_size := some content.utf8ByteSize
          warnings :=
            if n < countries.length then
              [toString (countries.length - n) ++ " countries could not be processed"]
            else [] }

/-- Modelled from the spec (section 4.3): escaping of the XML special
characters `&`, `<`, `>` in element text content per XML text rules.  No
escaping function exists in `improved_xml_generator.py`; this definition is
the spec's requirement, stated so that the formatter's output can be compared
against it. -/
def xmlEscapeText (s : String) : String :=
  String.mk (s.data.flatMap (fun c =>
    if c = '&' then "&amp;".data
    else if c = '<' then "&lt;".data
    else if c = '>' then "&gt;".data
    else [c]))

/-!  Concrete inputs used by counterexamples and witnesses. -/

/-- A record with every optional key absent. -/
def recEmpty : CountryRecord := { name := none, currencies := none, cca2 := none }

/-- A well-behaved record in the shape of the API's answer for `india`. -/
def recIndia : CountryRecord :=
  { name := some
      { official := some "Republic of India"
        common := some "India"
        nativeName := some
          [("eng", { official := some "Republic of India", common := some "India" }),
           ("hin", { official := some "Bharat Ganrajya", common := some "Bharat" })] }
    currencies := some [("INR", { name := some "Indian rupee", symbol := some "Rs" })]
    cca2 := some "IN" }

/-- A record whose native-name mapping lists a non-Hindi entry first and a
Hindi entry whose `official` value is the empty string. -/
def recEmptyHindi : CountryRecord :=
  { name := some
      { official := some "Test Republic"
        common := some "Test"
        nativeName := some
          [("abc", { official := some "Foo", common := none }),
           ("hin", { official := some "", common := none })] }
    currencies := none
    cca2 := some "TR" }

/-- A record whose official name contains the XML special characters `&`,
`<`, `>`. -/
def recAmp : CountryRecord :=
  { name := some
      { official := some "Trinidad & Tobago <W>"
        common := some "Trinidad"
        nativeName := none }
    currencies := none
    cca2 := some "TT" }

/-!  C4. -/

/-- C4 counterexample: the claim says `local_name` equals the Hindi entry's
official value even when that value is the empty string, but on
`recEmptyHindi` the improved extractor's fallback (`if not local_name`)
fires and yields the first entry's official value `"Foo"` instead of the
Hindi value `""`. -/
theorem claim_c4_empty_hindi_official_falls_back :
    alistLookup ((recEmptyHindi.name.getD ⟨none, none, none⟩).nativeName.getD []) "hin"
        = some { official := some "", common := none } ∧
    (extract_xml_data recEmptyHindi).local_name = "Foo" := by
  decide

/-- C4 (amended): for every record whose native-name mapping contains the
Hindi code with a NON-EMPTY official value, both extractors' `local_name`
equals that value, regardless of the other entries present.  (For an empty
official value the improved extractor falls back to the mapping's first
entry, as the counterexample shows.) -/
theorem claim_c4_hindi_local_name (r : CountryRecord) (nd : NameData)
    (nn : List (String × NativeEntry)) (e : NativeEntry) (v : String)
    (hname : r.name = some nd) (hnn : nd.nativeName = some nn)
    (hhin : alistLookup nn "hin" = some e) (hoff : e.official = some v) (hv : v ≠ "") :
    (extract_xml_data r).local_name = v ∧ (extract_xml_data_simple r).local_name = v := by
  constructor
  · simp [extract_xml_data, hname, hnn, language_priority, priorityLoop, hhin, hoff, hv]
  · simp [extract_xml_data_simple, hname, hnn, hhin, hoff]

/-- C4 witness: the amended theorem applied to `recIndia`. -/
theorem claim_c4_hindi_local_name_witness :
    (extract_xml_data recIndia).local_name = "Bharat Ganrajya" ∧
    (extract_xml_data_simple recIndia).local_name = "Bharat Ganrajya" :=
  claim_c4_hindi_local_name recIndia
    { official := some "Republic of India"
      common := some "India"
      nativeName := some
        [("eng", { official := some "Republic of India", common := some "India" }),
         ("hin", { official := some "Bharat Ganrajya", common := some "Bharat" })] }
    [("eng", { official := some "Republic of India", common := some "India" }),
     ("hin", { official := some "Bharat Ganrajya", common := some "Bharat" })]
    { official := some "Bharat Ganrajya", common := some "Bharat" }
    "Bharat Ganrajya" rfl rfl (by decide) rfl (by decide)

/-!  C7. -/

/-- C7: extraction is total (the embedding is a Lean function, mirroring that
every access uses `.get` with a default); each absent nested field yields the
empty string — including an absent `name`/`symbol` sub-field of a non-empty
currency mapping's leading entry; a record with zero currencies yields the
all-empty currency sub-record; and the rendered block always contains all
five top-level elements and all three currency sub-elements as lines, with
the extracted (possibly empty) values as their text. -/
theorem claim_c7_missing_fields_degrade (r : CountryRecord) :
    (r.cca2 = none → (extract_xml_data r).code = "") ∧
    (r.name = none →
      (extract_xml_data r).original_name = "" ∧
      (extract_xml_data r).common_name = "" ∧
      (extract_xml_data r).local_name = "") ∧
    (∀ nd, r.name = some nd → nd.official = none → (extract_xml_data r).original_name = "") ∧
    (∀ nd, r.name = some nd → nd.common = none → (extract_xml_data r).common_name = "") ∧
    (∀ nd, r.name = some nd → nd.nativeName = none → (extract_xml_data r).local_name = "") ∧
    (r.currencies = none ∨ r.currencies = some [] →
      (extract_xml_data r).currency = { code := "", name := "", symbol := "" }) ∧
    (∀ k cd rest, r.currencies = some ((k, cd) :: rest) → cd.name = none →
      (extract_xml_data r).currency.name = "") ∧
    (∀ k cd rest, r.currencies = some ((k, cd) :: rest) → cd.symbol = none →
      (extract_xml_data r).currency.symbol = "") ∧
    ("  <Countries>" ∈ countryBlockLines (extract_xml_data r) ∧
     "    <Code>" ++ (extract_xml_data r).code ++ "</Code>"
        ∈ countryBlockLines (extract_xml_data r) ∧
     "    <OriginalName>" ++ (extract_xml_data r).original_name ++ "</OriginalName>"
        ∈ countryBlockLines (extract_xml_data r) ∧
     "    <CommonName>" ++ (extract_xml_data r).common_name ++ "</CommonName>"
        ∈ countryBlockLines (extract_xml_data r) ∧
     "    <LocalName>" ++ (extract_xml_data r).local_name ++ "</LocalName>"
        ∈ countryBlockLines (extract_xml_data r) ∧
     "    <OfficialCurrency>" ∈ countryBlockLines (extract_xml_data r) ∧
     "      <Code>" ++ (extract_xml_data r).currency.code ++ "</Code>"
        ∈ countryBlockLines (extract_xml_data r) ∧
     "      <Name>" ++ (extract_xml_data r).currency.name ++ "</Name>"
        ∈ countryBlockLines (extract_xml_data r) ∧
     "      <Symbol>" ++ (extract_xml_data r).currency.symbol ++ "</Symbol>"
        ∈ countryBlockLines (extract_xml_data r) ∧
     "    </OfficialCurrency>" ∈ countryBlockLines (extract_xml_data r) ∧
     "  </Countries>" ∈ countryBlockLines (extract_xml_data r)) := by
  refine ⟨?_, ?_, ?_, ?_, ?_, ?_, ?_, ?_, ?_⟩
  · intro h
    simp [extract_xml_data, h]
  · intro h
    simp [extract_xml_data, h, language_priority, priorityLoop, alistLookup]
  · intro nd h h2
    simp [extract_xml_data, h, h2]
  · intro nd h h2
    simp [extract_xml_data, h, h2]
  · intro nd h h2
    simp [extract_xml_data, h, h2, language_priority, priorityLoop, alistLookup]
  · rintro (h | h) <;> simp [extract_xml_data, h]
  · intro k cd rest h h2
    simp [extract_xml_data, h, h2]
  · intro k cd rest h h2
    simp [extract_xml_data, h, h2]
  · simp [countryBlockLines]

/-- A record with a non-empty currency mapping whose entry has neither a
`name` nor a `symbol` sub-field. -/
def recUsdBare : CountryRecord :=
  { name := none
    currencies := some [("USD", { name := none, symbol := none })]
    cca2 := none }

/-- C7 witness: the theorem applied to the all-absent record and to a record
whose currency entry lacks its `name`/`symbol` sub-fields. -/
theorem claim_c7_missing_fields_degrade_witness :
    (extract_xml_data recEmpty).code = "" ∧
    (extract_xml_data recEmpty).original_name = "" ∧
    (extract_xml_data recEmpty).currency = { code := "", name := "", symbol := "" } ∧
    (extract_xml_data recUsdBare).currency.name = "" ∧
    (extract_xml_data recUsdBare).currency.symbol = "" ∧
    "    <LocalName>" ++ (extract_xml_data recEmpty).local_name ++ "</LocalName>"
      ∈ countryBlockLines (extract_xml_data recEmpty) := by
  have h := claim_c7_missing_fields_degrade recEmpty
  have h2 := claim_c7_missing_fields_degrade recUsdBare
  exact ⟨h.1 rfl, (h.2.1 rfl).1, h.2.2.2.2.2.1 (Or.inl rfl),
    h2.2.2.2.2.2.2.1 "USD" { name := none, symbol := none } [] rfl rfl,
    h2.2.2.2.2.2.2.2.1 "USD" { name := none, symbol := none } [] rfl rfl,
    h.2.2.2.2.2.2.2.2.2.2.2.2.1⟩

/-!  C8. -/

/-- C8: for a record whose currency mapping has exactly one entry, the
extracted currency code is that entry's key, name/symbol are the entry's
sub-fields with the empty string for an absent sub-field, and the rendered
`OfficialCurrency` sub-elements carry exactly those values. -/
theorem claim_c8_single_currency (r : CountryRecord) (k : String) (cd : CurrencyInfo)
    (h : r.currencies = some [(k, cd)]) :
    (extract_xml_data r).currency.code = k ∧
    (extract_xml_data r).currency.name = cd.name.getD "" ∧
    (extract_xml_data r).currency.symbol = cd.symbol.getD "" ∧
    "      <Code>" ++ k ++ "</Code>" ∈ countryBlockLines (extract_xml_data r) ∧
    "      <Name>" ++ cd.name.getD "" ++ "</Name>" ∈ countryBlockLines (extract_xml_data r) ∧
    "      <Symbol>" ++ cd.symbol.getD "" ++ "</Symbol>"
      ∈ countryBlockLines (extract_xml_data r) := by
  refine ⟨?_, ?_, ?_, ?_, ?_, ?_⟩ <;>
    simp [extract_xml_data, h, countryBlockLines]

/-- C8 witness: the theorem applied to `recIndia`. -/
theorem claim_c8_single_currency_witness :
    (extract_xml_data recIndia).currency.code = "INR" ∧
    (extract_xml_data recIndia).currency.name = "Indian rupee" ∧
    "      <Symbol>" ++ "Rs" ++ "</Symbol>" ∈ countryBlockLines (extract_xml_data recIndia) := by
  have h := claim_c8_single_currency recIndia "INR" { name := some "Indian rupee", symbol := some "Rs" } rfl
  exact ⟨h.1, h.2.1, h.2.2.2.2.2⟩

/-!  C9. -/

/-- C9: on a bare filename the formatter raises instead of writing.
`os.path.dirname("my_countries.xml")` is the empty string, and CPython
`os.makedirs("", exist_ok=True)` raises `FileNotFoundError` (the CLI's own
usage example `--output "my_countries.xml"` hits exactly this path); no file
is written.  With a directory component present the write succeeds. -/
theorem claim_c9_bare_filename_raises :
    dirname "my_countries.xml" = "" ∧
    generate_formatted_xml [recIndia] "my_countries.xml" = .error .fileNotFound ∧
    dirname "output/countries.xml" = "output" ∧
    generate_formatted_xml [recIndia] "output/countries.xml"
      = .ok ("output/countries.xml", final_xml [recIndia]) := by
  refine ⟨by decide, ?_, by decide, ?_⟩
  · simp [generate_formatted_xml, makedirs, show dirname "my_countries.xml" = "" by decide]
  · simp [generate_formatted_xml, makedirs, show dirname "output/countries.xml" = "output" by decide]

/-!  C1. -/

/-- Does `pat` occur as a contiguous run inside `s`? -/
def occursIn (pat : List Char) : List Char → Bool
  | [] => pat.isPrefixOf []
  | c :: rest => pat.isPrefixOf (c :: rest) || occursIn pat rest

set_option maxRecDepth 8192 in
/-- C1: the improved formatter performs no escaping: the raw official name
`Trinidad & Tobago <W>` appears verbatim in the generated document, its
XML-escaped form (required by the spec's XML-text rule, embedded as
`xmlEscapeText`) does not appear, and the document consequently does not
even re-parse (raw `&`), so the field value cannot round-trip. -/
theorem claim_c1_formatter_leaves_specials_unescaped :
    (extract_xml_data recAmp).original_name = "Trinidad & Tobago <W>" ∧
    occursIn "<OriginalName>Trinidad & Tobago <W></OriginalName>".data
      (final_xml [recAmp]).data = true ∧
    occursIn (xmlEscapeText "Trinidad & Tobago <W>").data
      (final_xml [recAmp]).data = false ∧
    xmlEscapeText "Trinidad & Tobago <W>" = "Trinidad &amp; Tobago &lt;W&gt;" ∧
    parseCountriesCount (final_xml [recAmp]) = none := by
  decide

/-!  C5. -/

/-- C5: when the fetch stage produced no records, `generate_countries_xml`
returns the null signal and nothing is written (the formatter is never
reached); when it produced a non-empty list (and the output path has a
directory component, cf. the C9 bug), the output path is returned together
with the written content. -/
theorem claim_c5_empty_input_writes_nothing (api : String → ApiOutcome)
    (names : List String) (out : String) :
    ((fetch_country_data api names).2 = .ok [] →
      generate_countries_xml api names out = .ok none) ∧
    (∀ recs, (fetch_country_data api names).2 = .ok recs → recs ≠ [] → dirname out ≠ "" →
      generate_countries_xml api names out = .ok (some (out, final_xml recs))) := by
  constructor
  · intro h
    simp [generate_countries_xml, h]
  · intro recs h hne hd
    simp [generate_countries_xml, h, hne, generate_formatted_xml, makedirs, hd]

/-- C5 witness: with an API oracle that finds nothing, nothing is written;
with one that resolves one name, the path is returned. -/
theorem claim_c5_empty_input_writes_nothing_witness :
    generate_countries_xml (fun _ => ApiOutcome.records []) ["x"] "output/countries.xml"
        = .ok none ∧
    generate_countries_xml (fun _ => ApiOutcome.records [recIndia]) ["india"]
        "output/countries.xml"
        = .ok (some ("output/countries.xml", final_xml [recIndia])) := by
  constructor
  · exact (claim_c5_empty_input_writes_nothing
      (fun _ => ApiOutcome.records []) ["x"] "output/countries.xml").1 rfl
  · exact (claim_c5_empty_input_writes_nothing
      (fun _ => ApiOutcome.records [recIndia]) ["india"] "output/countries.xml").2
      [recIndia] rfl (by decide) (by decide)

/-!  C6 / C10: the fetch loop. -/

/-- Behaviour of the fetch loop when no name's lookup raises a non-request
exception: one URL is requested per name, in input order, and the result is
the accumulator extended by the first element of every non-empty result
list, in input order. -/
theorem fetch_loop_spec (api : String → ApiOutcome) (names : List String)
    (acc : List CountryRecord)
    (h : ∀ n ∈ names, api (countryUrl n) ≠ .nonRequestExc) :
    fetch_loop api names acc =
      (names.map countryUrl,
       .ok (acc ++ names.filterMap (fun n =>
         match api (countryUrl n) with
         | .records (d :: _) => some d
         | _ => none))) := by
  induction names generalizing acc with
  | nil => simp [fetch_loop]
  | cons n rest ih =>
    have hn := h n (List.mem_cons_self n rest)
    have hr : ∀ m ∈ rest, api (countryUrl m) ≠ .nonRequestExc :=
      fun m hm => h m (List.mem_cons_of_mem n hm)
    cases hapi : api (countryUrl n) with
    | records data =>
      cases data with
      | nil => simp [fetch_loop, hapi, ih _ hr, List.filterMap_cons]
      | cons d ds => simp [fetch_loop, hapi, ih _ hr, List.filterMap_cons]
    | requestExc => simp [fetch_loop, hapi, ih _ hr, List.filterMap_cons]
    | nonRequestExc => exact absurd hapi hn

/-- Once some name's lookup raises an exception outside
`requests.exceptions.RequestException`, the loop terminates with that
exception no matter what was accumulated before. -/
theorem fetch_loop_error (api : String → ApiOutcome) (names : List String)
    (n : String) (hexc : api (countryUrl n) = .nonRequestExc) :
    ∀ acc, n ∈ names → (fetch_loop api names acc).2 = .error .nonRequestExc := by
  induction names with
  | nil =>
    intro acc hmem
    cases hmem
  | cons m rest ih =>
    intro acc hmem
    by_cases hm : api (countryUrl m) = .nonRequestExc
    · simp [fetch_loop, hm]
    · have hmem2 : n ∈ rest := by
        rcases List.mem_cons.mp hmem with h1 | h1
        · exact absurd (h1 ▸ hexc) hm
        · exact h1
      cases hapi : api (countryUrl m) with
      | records data =>
        cases data with
        | nil => simpa [fetch_loop, hapi] using ih acc hmem2
        | cons d ds => simpa [fetch_loop, hapi] using ih (acc ++ [d]) hmem2
      | requestExc => simpa [fetch_loop, hapi] using ih acc hmem2
      | nonRequestExc => exact absurd hapi hm

/-- A line with an interpolated value has a space as its third character, so
it can never equal the block-opening line, whose third character is `<`. -/
theorem value_line_ne_open (pre v post : String) (hpre : pre.data[2]? = some ' ')
    (hlen : 2 < pre.data.length) :
    (pre ++ v ++ post) ≠ "  <Countries>" := by
  intro h
  have hl2 : 2 < (pre.data ++ v.data).length := by
    simp only [List.length_append]
    omega
  have h2 : (pre ++ v ++ post).data[2]? = some ' ' := by
    rw [String.data_append, String.data_append, List.getElem?_append, if_pos hl2,
      List.getElem?_append, if_pos hlen, hpre]
  rw [h] at h2
  have h3 : ("  <Countries>" : String).data[2]? = some '<' := rfl
  exact absurd (h3.symm.trans h2) (by decide)

/-- Each rendered country block contains the opening line `"  <Countries>"`
exactly once, whatever the extracted values are. -/
theorem countryBlockLines_count (x : ExtractedCountry) :
    (countryBlockLines x).count "  <Countries>" = 1 := by
  have h1 := value_line_ne_open "    <Code>" x.code "</Code>" rfl (by decide)
  have h2 := value_line_ne_open "    <OriginalName>" x.original_name "</OriginalName>" rfl
    (by decide)
  have h3 := value_line_ne_open "    <CommonName>" x.common_name "</CommonName>" rfl (by decide)
  have h4 := value_line_ne_open "    <LocalName>" x.local_name "</LocalName>" rfl (by decide)
  have h5 := value_line_ne_open "      <Code>" x.currency.code "</Code>" rfl (by decide)
  have h6 := value_line_ne_open "      <Name>" x.currency.name "</Name>" rfl (by decide)
  have h7 := value_line_ne_open "      <Symbol>" x.currency.symbol "</Symbol>" rfl (by decide)
  simp [countryBlockLines, List.count_cons, h1, h2, h3, h4, h5, h6, h7]

/-- The `xml_lines` list contains one block-opening line per record. -/
theorem improved_xml_lines_count (recs : List CountryRecord) :
    (improved_xml_lines recs).count "  <Countries>" = recs.length := by
  have hmid : ∀ l : List CountryRecord,
      ((l.map (fun cd => countryBlockLines (extract_xml_data cd))).flatten).count
        "  <Countries>" = l.length := by
    intro l
    induction l with
    | nil => simp
    | cons r rest ih =>
      simp [List.count_append, countryBlockLines_count, ih]
      omega
  simp [improved_xml_lines, List.count_append, hmid]

/-- C6: for every input list whose lookups stay within the fetcher's
`except` clause, the Fetcher requests exactly one URL per name in order,
keeps the first element of each non-empty result list, skips failed and
empty lookups, returns the kept records in fetch order, and the formatter
then produces exactly one country block per fetched record — hence at most
one block per input name. -/
theorem claim_c6_fetcher_contract (api : String → ApiOutcome) (names : List String)
    (h : ∀ n ∈ names, api (countryUrl n) ≠ .nonRequestExc) :
    (fetch_country_data api names).1 = names.map countryUrl ∧
    (fetch_country_data api names).2 = .ok (names.filterMap (fun n =>
      match api (countryUrl n) with
      | .records (d :: _) => some d
      | _ => none)) ∧
    (∀ recs, (fetch_country_data api names).2 = .ok recs →
      recs.length ≤ names.length ∧
      (improved_xml_lines recs).count "  <Countries>" = recs.length) := by
  have hs := fetch_loop_spec api names [] h
  refine ⟨?_, ?_, ?_⟩
  · rw [fetch_country_data, hs]
  · rw [fetch_country_data, hs]
    simp
  · intro recs hr
    rw [fetch_country_data, hs] at hr
    simp only [List.nil_append, Except.ok.injEq] at hr
    subst hr
    exact ⟨List.length_filterMap_le _ _, improved_xml_lines_count _⟩

/-- API oracle used by the C6 witness: `india` resolves, `nowhere` returns
an empty list, anything else fails with a `RequestException`. -/
def apiC6 : String → ApiOutcome := fun url =>
  if url = countryUrl "india" then .records [recIndia]
  else if url = countryUrl "nowhere" then .records [] else .requestExc

/-- C6 witness: three names, one resolving, one empty, one failing. -/
theorem claim_c6_fetcher_contract_witness :
    (fetch_country_data apiC6 ["india", "nowhere", "fail"]).1
        = [countryUrl "india", countryUrl "nowhere", countryUrl "fail"] ∧
    (fetch_country_data apiC6 ["india", "nowhere", "fail"]).2 = .ok [recIndia] ∧
    ([recIndia].length ≤ (["india", "nowhere", "fail"] : List String).length ∧
     (improved_xml_lines [recIndia]).count "  <Countries>" = [recIndia].length) := by
  have h := claim_c6_fetcher_contract apiC6 ["india", "nowhere", "fail"] (by decide)
  have h2 : (fetch_country_data apiC6 ["india", "nowhere", "fail"]).2 = .ok [recIndia] := h.2.1
  exact ⟨h.1, h2, h.2.2 [recIndia] h2⟩

/-- C10: the fetcher's `except` clause names only
`requests.exceptions.RequestException`; under the claim's premise that a
lookup's body fails to decode as JSON with an exception outside that class,
the exception propagates out of `fetch_country_data` and the whole batch is
lost, including records already fetched for earlier names. -/
theorem claim_c10_nonrequest_exception_aborts (api : String → ApiOutcome)
    (names : List String) (n : String) (hmem : n ∈ names)
    (hexc : api (countryUrl n) = .nonRequestExc) :
    (fetch_country_data api names).2 = .error .nonRequestExc := by
  rw [fetch_country_data]
  exact fetch_loop_error api names n hexc [] hmem

/-- C10 witness: the first name resolves, the second hits a non-request
JSON decode failure; the batch is aborted and the first record lost. -/
theorem claim_c10_nonrequest_exception_aborts_witness :
    (fetch_country_data
      (fun url => if url = countryUrl "india" then .records [recIndia] else .nonRequestExc)
      ["india", "bad"]).2 = .error .nonRequestExc :=
  claim_c10_nonrequest_exception_aborts
    (fun url => if url = countryUrl "india" then .records [recIndia] else .nonRequestExc)
    ["india", "bad"] "bad" (by decide) (by decide)

/-!  C2 / C3 machinery: composition of the scanner over the generated
document.  The document is decomposed into "chunks" — complete `<...>`
groups and text runs — and the scanner is shown to process a well-behaved
chunk list one chunk at a time. -/

/-- A string is benign when it contains none of the XML special characters
`&`, `<`, `>`; such a field value is inserted into the document verbatim and
reads back as text. -/
def benignStr (s : String) : Prop :=
  ∀ c ∈ s.data, c ≠ '&' ∧ c ≠ '<' ∧ c ≠ '>'

instance (s : String) : Decidable (benignStr s) := by
  unfold benignStr
  infer_instance

/-- All seven extracted field values are benign. -/
def benignExtract (x : ExtractedCountry) : Prop :=
  benignStr x.code ∧ benignStr x.original_name ∧ benignStr x.common_name ∧
    benignStr x.local_name ∧ benignStr x.currency.code ∧ benignStr x.currency.name ∧
    benignStr x.currency.symbol

instance (x : ExtractedCountry) : Decidable (benignExtract x) := by
  unfold benignExtract
  infer_instance

/-- Scanning a `<`-free text run emits its characters as text tokens and
stays outside any tag. -/
theorem tokScan_text (s : List Char) (h : ∀ c ∈ s, c ≠ '<') (t : List Char) :
    tokScan (s ++ t) none = textToks s ++ tokScan t none := by
  induction s with
  | nil => simp [textToks]
  | cons c s ih =>
    have hc : c ≠ '<' := h c (List.mem_cons_self c s)
    simp [tokScan, hc, textToks, ih (fun d hd => h d (List.mem_cons_of_mem c hd))]

/-- Scanning the rest of a tag body: the buffered prefix and the remaining
body characters are classified together at the closing `>`. -/
theorem tokScan_tagbody (body : List Char) (h : ∀ c ∈ body, c ≠ '>') (buf t : List Char) :
    tokScan (body ++ '>' :: t) (some buf) = tagToken (buf ++ body) :: tokScan t none := by
  induction body generalizing buf with
  | nil => simp [tokScan]
  | cons c body ih =>
    have hc : c ≠ '>' := h c (List.mem_cons_self c body)
    have ih2 := ih (fun d hd => h d (List.mem_cons_of_mem c hd)) (buf ++ [c])
    have hstep : tokScan ((c :: body) ++ '>' :: t) (some buf)
        = tokScan (body ++ '>' :: t) (some (buf ++ [c])) := by
      simp [tokScan, hc]
    rw [hstep, ih2]
    simp [List.append_assoc]

/-- Scanning one complete `<body>` group emits its token and returns to the
outside-tag state. -/
theorem tokScan_tag (body : List Char) (h : ∀ c ∈ body, c ≠ '>') (t : List Char) :
    tokScan (('<' :: body ++ ['>']) ++ t) none = tagToken body :: tokScan t none := by
  have : ('<' :: body ++ ['>']) ++ t = '<' :: (body ++ '>' :: t) := by
    simp [List.append_assoc]
  rw [this]
  simp only [tokScan, if_pos rfl]
  simpa using tokScan_tagbody body h [] t

/-- A piece of the generated document: one complete tag group or one text
run. -/
inductive Chunk where
  | tagC (body : List Char)
  | txtC (s : List Char)
deriving Repr, DecidableEq

/-- The characters a chunk contributes to the document. -/
def Chunk.render : Chunk → List Char
  | .tagC body => '<' :: body ++ ['>']
  | .txtC s => s

/-- The tokens the scanner emits for a chunk. -/
def Chunk.toks : Chunk → List XmlTok
  | .tagC body => [tagToken body]
  | .txtC s => textToks s

/-- A chunk the scanner processes in isolation: a tag body without `>`, or a
text run without `<`; additionally the chunk contains no raw `&`, so the
document stays parseable. -/
def chunkOk : Chunk → Prop
  | .tagC body => (∀ c ∈ body, c ≠ '>') ∧ ∀ c ∈ body, c ≠ '&'
  | .txtC s => (∀ c ∈ s, c ≠ '<') ∧ ∀ c ∈ s, c ≠ '&'

instance (c : Chunk) : Decidable (chunkOk c) := by
  cases c <;> simp only [chunkOk] <;> infer_instance

/-- Characters of a chunk list. -/
def chunksRender (cs : List Chunk) : List Char :=
  (cs.map Chunk.render).flatten

/-- Tokens of a chunk list. -/
def chunksToks (cs : List Chunk) : List XmlTok :=
  (cs.map Chunk.toks).flatten

/-- The scanner processes a well-behaved chunk list chunk by chunk. -/
theorem tokScan_chunks (cs : List Chunk) (h : ∀ c ∈ cs, chunkOk c) (t : List Char) :
    tokScan (chunksRender cs ++ t) none = chunksToks cs ++ tokScan t none := by
  induction cs with
  | nil => simp [chunksRender, chunksToks]
  | cons c cs ih =>
    have hc := h c (List.mem_cons_self c cs)
    have ih2 := ih (fun d hd => h d (List.mem_cons_of_mem c hd))
    cases c with
    | tagC body =>
      have hr : chunksRender (Chunk.tagC body :: cs) ++ t
          = ('<' :: body ++ ['>']) ++ (chunksRender cs ++ t) := by
        simp [chunksRender, Chunk.render, List.append_assoc]
      rw [hr, tokScan_tag body hc.1, ih2]
      simp [chunksToks, Chunk.toks]
    | txtC s =>
      have hr : chunksRender (Chunk.txtC s :: cs) ++ t
          = s ++ (chunksRender cs ++ t) := by
        simp [chunksRender, Chunk.render, List.append_assoc]
      rw [hr, tokScan_text s hc.1, ih2]
      simp [chunksToks, Chunk.toks]

/-- Scanning a well-behaved chunk list with nothing after it. -/
theorem tokenize_chunks (cs : List Chunk) (h : ∀ c ∈ cs, chunkOk c) :
    tokenize (chunksRender cs) = chunksToks cs := by
  have h2 := tokScan_chunks cs h []
  simpa [tokenize, tokScan] using h2

/-- Chunk decomposition of one rendered country block, including the
newline that `"\n".join` places after each of its twelve lines. -/
def blockChunks (x : ExtractedCountry) : List Chunk :=
  [Chunk.txtC "  ".data, Chunk.tagC "Countries".data, Chunk.txtC "\n    ".data,
   Chunk.tagC "Code".data, Chunk.txtC x.code.data, Chunk.tagC "/Code".data,
   Chunk.txtC "\n    ".data,
   Chunk.tagC "OriginalName".data, Chunk.txtC x.original_name.data,
   Chunk.tagC "/OriginalName".data, Chunk.txtC "\n    ".data,
   Chunk.tagC "CommonName".data, Chunk.txtC x.common_name.data,
   Chunk.tagC "/CommonName".data, Chunk.txtC "\n    ".data,
   Chunk.tagC "LocalName".data, Chunk.txtC x.local_name.data,
   Chunk.tagC "/LocalName".data, Chunk.txtC "\n    ".data,
   Chunk.tagC "OfficialCurrency".data, Chunk.txtC "\n      ".data,
   Chunk.tagC "Code".data, Chunk.txtC x.currency.code.data, Chunk.tagC "/Code".data,
   Chunk.txtC "\n      ".data,
   Chunk.tagC "Name".data, Chunk.txtC x.currency.name.data, Chunk.tagC "/Name".data,
   Chunk.txtC "\n      ".data,
   Chunk.tagC "Symbol".data, Chunk.txtC x.currency.symbol.data, Chunk.tagC "/Symbol".data,
   Chunk.txtC "\n    ".data,
   Chunk.tagC "/OfficialCurrency".data, Chunk.txtC "\n  ".data,
   Chunk.tagC "/Countries".data, Chunk.txtC "\n\n".data]

/-- Chunk decomposition of the whole document produced by
`generate_formatted_xml`. -/
def docChunks (recs : List CountryRecord) : List Chunk :=
  [Chunk.tagC "?xml version=\"1.0\" encoding=\"UTF-8\"?".data, Chunk.txtC "\n".data,
   Chunk.tagC "CountriesCollection".data, Chunk.txtC "\n".data]
    ++ (recs.map (fun r => blockChunks (extract_xml_data r))).flatten
    ++ [Chunk.tagC "/CountriesCollection".data]

/-- `"\n".join (ls ++ [last])` seen as characters: every line of `ls`
followed by a newline, then the last line. -/
theorem joinLines_data (ls : List String) (last : String) :
    (joinLines (ls ++ [last])).data
      = ((ls.map (fun l => l.data ++ ['\n'])).flatten) ++ last.data := by
  induction ls with
  | nil => simp [joinLines]
  | cons a ls ih =>
    cases hls : ls ++ [last] with
    | nil => exact absurd hls (by simp)
    | cons b tl =>
      have h1 : (a :: ls) ++ [last] = a :: b :: tl := by rw [List.cons_append, hls]
      rw [h1]
      have h2 : joinLines (a :: b :: tl) = a ++ "\n" ++ joinLines (b :: tl) := rfl
      rw [h2, ← hls, String.data_append, String.data_append, ih]
      simp

/-- Rendering distributes over chunk-list concatenation. -/
theorem chunksRender_append (a b : List Chunk) :
    chunksRender (a ++ b) = chunksRender a ++ chunksRender b := by
  simp [chunksRender]

/-- The rendered chunk decomposition of one block equals that block's
twelve joined lines. -/
theorem blockChunks_render (x : ExtractedCountry) :
    chunksRender (blockChunks x)
      = ((countryBlockLines x).map (fun l => l.data ++ ['\n'])).flatten := by
  simp [chunksRender, blockChunks, Chunk.render, countryBlockLines, String.data_append,
    List.append_assoc]

/-- The characters of the generated document are exactly the rendered
document chunks. -/
theorem final_xml_data (recs : List CountryRecord) :
    (final_xml recs).data = chunksRender (docChunks recs) := by
  have h1 : improved_xml_lines recs
      = (["<?xml version=\"1.0\" encoding=\"UTF-8\"?>", "<CountriesCollection>"]
          ++ (recs.map (fun cd => countryBlockLines (extract_xml_data cd))).flatten)
        ++ ["</CountriesCollection>"] := by
    simp [improved_xml_lines]
  rw [final_xml, h1, joinLines_data]
  have h2 : ∀ l : List CountryRecord,
      (((l.map (fun cd => countryBlockLines (extract_xml_data cd))).flatten).map
        (fun l => l.data ++ ['\n'])).flatten
      = chunksRender ((l.map (fun r => blockChunks (extract_xml_data r))).flatten) := by
    intro l
    induction l with
    | nil => simp [chunksRender]
    | cons r rest ih =>
      simp only [List.map_cons, List.flatten_cons, List.map_append, List.flatten_append]
      rw [ih, chunksRender_append, blockChunks_render]
  simp only [List.map_append, List.flatten_append]
  rw [h2]
  simp [docChunks, chunksRender, Chunk.render, String.data_append, List.append_assoc]

/-- Every chunk of a block is well-behaved when the extracted values are
benign. -/
theorem blockChunks_ok (x : ExtractedCountry) (hx : benignExtract x) :
    ∀ c ∈ blockChunks x, chunkOk c := by
  obtain ⟨h1, h2, h3, h4, h5, h6, h7⟩ := hx
  have bOk : ∀ (s : String), benignStr s → chunkOk (Chunk.txtC s.data) :=
    fun s hs => ⟨fun ch hch => (hs ch hch).2.1, fun ch hch => (hs ch hch).1⟩
  intro c hc
  simp only [blockChunks, List.mem_cons, List.not_mem_nil, or_false] at hc
  rcases hc with rfl | rfl | rfl | rfl | rfl | rfl | rfl | rfl | rfl | rfl | rfl | rfl | rfl |
    rfl | rfl | rfl | rfl | rfl | rfl | rfl | rfl | rfl | rfl | rfl | rfl | rfl | rfl | rfl |
    rfl | rfl | rfl | rfl | rfl | rfl | rfl | rfl | rfl
  all_goals first
    | decide
    | exact bOk _ h1
    | exact bOk _ h2
    | exact bOk _ h3
    | exact bOk _ h4
    | exact bOk _ h5
    | exact bOk _ h6
    | exact bOk _ h7

/-- Every chunk of the document is well-behaved when every record's
extracted values are benign. -/
theorem docChunks_ok (recs : List CountryRecord)
    (h : ∀ r ∈ recs, benignExtract (extract_xml_data r)) :
    ∀ c ∈ docChunks recs, chunkOk c := by
  intro c hc
  simp only [docChunks, List.mem_append, List.mem_cons, List.not_mem_nil, or_false,
    List.mem_flatten, List.mem_map] at hc
  rcases hc with ((rfl | rfl | rfl | rfl) | ⟨l, ⟨r, hr, rfl⟩, hcl⟩) | rfl
  · decide
  · decide
  · decide
  · decide
  · exact blockChunks_ok _ (h r hr) c hcl
  · decide

/-- Scanning the generated document yields exactly the tokens of its chunk
decomposition, provided every extracted value is benign. -/
theorem tokenize_final_xml (recs : List CountryRecord)
    (h : ∀ r ∈ recs, benignExtract (extract_xml_data r)) :
    tokenize (final_xml recs).data = chunksToks (docChunks recs) := by
  rw [final_xml_data]
  exact tokenize_chunks _ (docChunks_ok recs h)

/-- Token extraction distributes over chunk-list concatenation. -/
theorem chunksToks_append (a b : List Chunk) :
    chunksToks (a ++ b) = chunksToks a ++ chunksToks b := by
  simp [chunksToks]

/-- Normal form of one block's token stream. -/
theorem blockChunks_toks (x : ExtractedCountry) :
    chunksToks (blockChunks x)
      = textToks "  ".data ++ [XmlTok.elemOpen "Countries".data]
        ++ textToks "\n    ".data
        ++ [XmlTok.elemOpen "Code".data] ++ textToks x.code.data
        ++ [XmlTok.elemClose "Code".data] ++ textToks "\n    ".data
        ++ [XmlTok.elemOpen "OriginalName".data] ++ textToks x.original_name.data
        ++ [XmlTok.elemClose "OriginalName".data] ++ textToks "\n    ".data
        ++ [XmlTok.elemOpen "CommonName".data] ++ textToks x.common_name.data
        ++ [XmlTok.elemClose "CommonName".data] ++ textToks "\n    ".data
        ++ [XmlTok.elemOpen "LocalName".data] ++ textToks x.local_name.data
        ++ [XmlTok.elemClose "LocalName".data] ++ textToks "\n    ".data
        ++ [XmlTok.elemOpen "OfficialCurrency".data] ++ textToks "\n      ".data
        ++ [XmlTok.elemOpen "Code".data] ++ textToks x.currency.code.data
        ++ [XmlTok.elemClose "Code".data] ++ textToks "\n      ".data
        ++ [XmlTok.elemOpen "Name".data] ++ textToks x.currency.name.data
        ++ [XmlTok.elemClose "Name".data] ++ textToks "\n      ".data
        ++ [XmlTok.elemOpen "Symbol".data] ++ textToks x.currency.symbol.data
        ++ [XmlTok.elemClose "Symbol".data] ++ textToks "\n    ".data
        ++ [XmlTok.elemClose "OfficialCurrency".data] ++ textToks "\n  ".data
        ++ [XmlTok.elemClose "Countries".data] ++ textToks "\n\n".data := by
  simp [chunksToks, blockChunks, Chunk.toks, tagToken, tagName, List.append_assoc]

/-- Counting distributes over token-stream concatenation. -/
theorem countElems_append (n : List Char) (a b : List XmlTok) :
    countElems n (a ++ b) = countElems n a + countElems n b := by
  simp [countElems, List.countP_append]

/-- Text tokens never count as elements. -/
theorem countP_isElemTok_textToks (n : List Char) (s : List Char) :
    List.countP (isElemTok n) (textToks s) = 0 := by
  simp [textToks, List.countP_map, Function.comp, isElemTok]

/-- Text tokens never count as elements (in `countElems` form). -/
theorem countElems_textToks (n : List Char) (s : List Char) :
    countElems n (textToks s) = 0 :=
  countP_isElemTok_textToks n s

/-- One block contributes exactly one `Countries` element. -/
theorem countElems_blockChunks (x : ExtractedCountry) :
    countElems "Countries".data (chunksToks (blockChunks x)) = 1 := by
  rw [blockChunks_toks]
  simp [countElems_append, countP_isElemTok_textToks, countElems, isElemTok]

/-- The block sequence contributes one `Countries` element per record. -/
theorem countElems_middle (recs : List CountryRecord) :
    countElems "Countries".data
      (chunksToks ((recs.map (fun r => blockChunks (extract_xml_data r))).flatten))
      = recs.length := by
  induction recs with
  | nil => simp [chunksToks, countElems]
  | cons r rest ih =>
    rw [List.map_cons, List.flatten_cons, chunksToks_append, countElems_append,
      countElems_blockChunks, ih, List.length_cons]
    omega

/-- The whole document contains exactly one `Countries` element per
record. -/
theorem countElems_doc (recs : List CountryRecord) :
    countElems "Countries".data (chunksToks (docChunks recs)) = recs.length := by
  have hd : docChunks recs
      = ([Chunk.tagC "?xml version=\"1.0\" encoding=\"UTF-8\"?".data, Chunk.txtC "\n".data,
          Chunk.tagC "CountriesCollection".data, Chunk.txtC "\n".data]
          ++ (recs.map (fun r => blockChunks (extract_xml_data r))).flatten)
        ++ [Chunk.tagC "/CountriesCollection".data] := by
    simp [docChunks]
  rw [hd, chunksToks_append, chunksToks_append, countElems_append, countElems_append,
    countElems_middle]
  have h1 : countElems "Countries".data
      (chunksToks [Chunk.tagC "?xml version=\"1.0\" encoding=\"UTF-8\"?".data,
        Chunk.txtC "\n".data, Chunk.tagC "CountriesCollection".data, Chunk.txtC "\n".data])
      = 0 := by decide
  have h2 : countElems "Countries".data
      (chunksToks [Chunk.tagC "/CountriesCollection".data]) = 0 := by decide
  omega

/-- Nesting depth after concatenated token streams. -/
theorem depthAfter_append (a b : List XmlTok) (d : Nat) :
    depthAfter (a ++ b) d = depthAfter b (depthAfter a d) := by
  induction a generalizing d with
  | nil => simp [depthAfter]
  | cons tok a ih => cases tok <;> simp [depthAfter, ih]

/-- Top-level element count over concatenated token streams. -/
theorem topCount_append (a b : List XmlTok) (d : Nat) :
    topCount (a ++ b) d = topCount a d + topCount b (depthAfter a d) := by
  induction a generalizing d with
  | nil => simp [topCount, depthAfter]
  | cons tok a ih => cases tok <;> simp [topCount, depthAfter, ih] <;> omega

/-- The open-tag stack over concatenated token streams. -/
theorem stackAfter_append (a b : List XmlTok) (st : List (List Char)) :
    stackAfter (a ++ b) st = (stackAfter a st).bind (fun s2 => stackAfter b s2) := by
  induction a generalizing st with
  | nil => simp [stackAfter]
  | cons tok a ih =>
    cases tok with
    | elemClose n =>
      cases st with
      | nil => simp [stackAfter]
      | cons m rest =>
        by_cases h : n = m <;> simp [stackAfter, h, ih]
    | elemOpen n => simp [stackAfter, ih]
    | elemSelf n => simp [stackAfter, ih]
    | procInst => simp [stackAfter, ih]
    | textChar c => simp [stackAfter, ih]

/-- Text tokens do not change the nesting depth. -/
theorem depthAfter_textToks (s : List Char) (d : Nat) :
    depthAfter (textToks s) d = d := by
  induction s with
  | nil => simp [textToks, depthAfter]
  | cons c s ih => simpa [textToks, depthAfter] using ih

/-- Text tokens open no top-level elements. -/
theorem topCount_textToks (s : List Char) (d : Nat) :
    topCount (textToks s) d = 0 := by
  induction s with
  | nil => simp [textToks, topCount]
  | cons c s ih => simpa [textToks, topCount] using ih

/-- Text tokens do not change the open-tag stack. -/
theorem stackAfter_textToks (s : List Char) (st : List (List Char)) :
    stackAfter (textToks s) st = some st := by
  induction s with
  | nil => simp [textToks, stackAfter]
  | cons c s ih => simpa [textToks, stackAfter] using ih

/-- Depth change of a single opening tag. -/
theorem depthAfter_open (n : List Char) (d : Nat) :
    depthAfter [XmlTok.elemOpen n] d = d + 1 := rfl

/-- Depth change of a single closing tag. -/
theorem depthAfter_close (n : List Char) (d : Nat) :
    depthAfter [XmlTok.elemClose n] d = d - 1 := rfl

/-- Top-level count of a single opening tag. -/
theorem topCount_open (n : List Char) (d : Nat) :
    topCount [XmlTok.elemOpen n] d = if d = 0 then 1 else 0 := by
  simp [topCount]

/-- Top-level count of a single closing tag. -/
theorem topCount_close (n : List Char) (d : Nat) :
    topCount [XmlTok.elemClose n] d = 0 := by
  simp [topCount]

/-- Stack change of a single opening tag. -/
theorem stackAfter_open (n : List Char) (st : List (List Char)) :
    stackAfter [XmlTok.elemOpen n] st = some (n :: st) := rfl

/-- Stack change of a single closing tag over a non-empty stack. -/
theorem stackAfter_close (n m : List Char) (st : List (List Char)) :
    stackAfter [XmlTok.elemClose n] (m :: st) = if n = m then some st else none := by
  by_cases h : n = m <;> simp [stackAfter, h]

/-- A block entered at depth 1 leaves the depth at 1. -/
theorem depthAfter_blockChunks (x : ExtractedCountry) :
    depthAfter (chunksToks (blockChunks x)) 1 = 1 := by
  rw [blockChunks_toks]
  simp only [depthAfter_append, depthAfter_textToks, depthAfter_open, depthAfter_close]

/-- A block entered at depth 1 opens no top-level element. -/
theorem topCount_blockChunks (x : ExtractedCountry) :
    topCount (chunksToks (blockChunks x)) 1 = 0 := by
  rw [blockChunks_toks]
  simp only [topCount_append, depthAfter_append, topCount_textToks, depthAfter_textToks,
    topCount_open, topCount_close, depthAfter_open, depthAfter_close]
  decide

/-- A block's tags are balanced over the root element's stack. -/
theorem stackAfter_blockChunks (x : ExtractedCountry) :
    stackAfter (chunksToks (blockChunks x)) ["CountriesCollection".data]
      = some ["CountriesCollection".data] := by
  rw [blockChunks_toks]
  simp only [stackAfter_append, stackAfter_textToks, stackAfter_open, stackAfter_close,
    Option.some_bind]
  decide

/-- The document's chunk list, split into header, blocks and footer. -/
theorem docChunks_split (recs : List CountryRecord) :
    docChunks recs
      = ([Chunk.tagC "?xml version=\"1.0\" encoding=\"UTF-8\"?".data, Chunk.txtC "\n".data,
          Chunk.tagC "CountriesCollection".data, Chunk.txtC "\n".data]
          ++ (recs.map (fun r => blockChunks (extract_xml_data r))).flatten)
        ++ [Chunk.tagC "/CountriesCollection".data] := by
  simp [docChunks]

/-- The block sequence, entered at depth 1, leaves the depth at 1 and opens
no top-level element, and leaves the root element's stack unchanged. -/
theorem middle_analysis (recs : List CountryRecord) :
    depthAfter (chunksToks ((recs.map (fun r => blockChunks (extract_xml_data r))).flatten)) 1
        = 1 ∧
    topCount (chunksToks ((recs.map (fun r => blockChunks (extract_xml_data r))).flatten)) 1
        = 0 ∧
    stackAfter (chunksToks ((recs.map (fun r => blockChunks (extract_xml_data r))).flatten))
        ["CountriesCollection".data]
      = some ["CountriesCollection".data] := by
  induction recs with
  | nil => refine ⟨rfl, rfl, rfl⟩
  | cons r rest ih =>
    obtain ⟨ihd, iht, ihs⟩ := ih
    refine ⟨?_, ?_, ?_⟩
    · rw [List.map_cons, List.flatten_cons, chunksToks_append, depthAfter_append,
        depthAfter_blockChunks, ihd]
    · rw [List.map_cons, List.flatten_cons, chunksToks_append, topCount_append,
        topCount_blockChunks, depthAfter_blockChunks, iht]
    · rw [List.map_cons, List.flatten_cons, chunksToks_append, stackAfter_append,
        stackAfter_blockChunks, Option.some_bind, ihs]

/-- The generated document has exactly one top-level element. -/
theorem topCount_doc (recs : List CountryRecord) :
    topCount (chunksToks (docChunks recs)) 0 = 1 := by
  rw [docChunks_split, chunksToks_append, chunksToks_append, topCount_append, topCount_append,
    depthAfter_append]
  rw [show depthAfter (chunksToks [Chunk.tagC "?xml version=\"1.0\" encoding=\"UTF-8\"?".data,
    Chunk.txtC "\n".data, Chunk.tagC "CountriesCollection".data, Chunk.txtC "\n".data]) 0 = 1
    from by decide]
  rw [show topCount (chunksToks [Chunk.tagC "?xml version=\"1.0\" encoding=\"UTF-8\"?".data,
    Chunk.txtC "\n".data, Chunk.tagC "CountriesCollection".data, Chunk.txtC "\n".data]) 0 = 1
    from by decide]
  rw [(middle_analysis recs).2.1, (middle_analysis recs).1]
  rw [show topCount (chunksToks [Chunk.tagC "/CountriesCollection".data]) 1 = 0 from by decide]

/-- The generated document's tags are balanced. -/
theorem stackAfter_doc (recs : List CountryRecord) :
    stackAfter (chunksToks (docChunks recs)) [] = some [] := by
  rw [docChunks_split, chunksToks_append, chunksToks_append, stackAfter_append,
    stackAfter_append]
  rw [show stackAfter (chunksToks [Chunk.tagC "?xml version=\"1.0\" encoding=\"UTF-8\"?".data,
    Chunk.txtC "\n".data, Chunk.tagC "CountriesCollection".data, Chunk.txtC "\n".data]) []
    = some ["CountriesCollection".data] from by decide]
  rw [Option.some_bind, (middle_analysis recs).2.2, Option.some_bind]
  decide

/-- A well-behaved chunk renders no raw `&`. -/
theorem chunksRender_no_amp (cs : List Chunk) (h : ∀ c ∈ cs, chunkOk c) :
    ∀ ch ∈ chunksRender cs, ch ≠ '&' := by
  induction cs with
  | nil => simp [chunksRender]
  | cons c cs ih =>
    intro ch hch
    have hc := h c (List.mem_cons_self c cs)
    have hrest := ih (fun d hd => h d (List.mem_cons_of_mem c hd))
    have hsplit : chunksRender (c :: cs) = Chunk.render c ++ chunksRender cs := by
      simp [chunksRender]
    rw [hsplit, List.mem_append] at hch
    rcases hch with hch | hch
    · cases c with
      | tagC body =>
        simp only [Chunk.render, List.mem_cons, List.mem_append, List.mem_singleton] at hch
        rcases hch with (rfl | hch) | (rfl | h0)
        · decide
        · exact hc.2 ch hch
        · decide
        · cases h0
      | txtC s => exact hc.2 ch hch
    · exact hrest ch hch

/-- Re-parsing the generated document succeeds and finds exactly one
`Countries` element per record, provided every extracted value is benign. -/
theorem parse_final_xml (recs : List CountryRecord)
    (h : ∀ r ∈ recs, benignExtract (extract_xml_data r)) :
    parseCountriesCount (final_xml recs) = some recs.length := by
  have hamp : (final_xml recs).data.all (fun c => c ≠ '&') = true := by
    rw [List.all_eq_true]
    intro ch hch
    rw [final_xml_data] at hch
    simpa using chunksRender_no_amp (docChunks recs) (docChunks_ok recs h) ch hch
  have htoks := tokenize_final_xml recs h
  rw [parseCountriesCount, htoks]
  rw [if_pos ⟨stackAfter_doc recs, hamp⟩, countElems_doc]

/-!  C3. -/

/-- C3 (amended): the output of both generators begins with the XML
declaration; the improved generator wraps everything in the single
`CountriesCollection` root, so that — provided no extracted field value
contains `&`, `<` or `>` — the document has exactly one top-level element
and balanced tags.  (The simple generator strips its temporary root and is
covered only by the declaration-prefix part; the counterexample shows its
output has one top-level element per record.) -/
theorem claim_c3_single_root (recs : List CountryRecord)
    (h : ∀ r ∈ recs, benignExtract (extract_xml_data r)) :
    (∃ rest, final_xml recs = "<?xml version=\"1.0\" encoding=\"UTF-8\"?>\n" ++ rest) ∧
    topCount (tokenize (final_xml recs).data) 0 = 1 ∧
    stackAfter (tokenize (final_xml recs).data) [] = some [] ∧
    (∀ (recs2 : List CountryRecord) (out : String) (written : String × String),
      simple_generate_xml recs2 out = .ok written →
      ∃ rest, written.2 = "<?xml version=\"1.0\" encoding=\"UTF-8\"?>\n" ++ rest) := by
  refine ⟨?_, ?_, ?_, ?_⟩
  · exact ⟨joinLines ("<CountriesCollection>"
      :: ((recs.map (fun cd => countryBlockLines (extract_xml_data cd))).flatten
          ++ ["</CountriesCollection>"])), rfl⟩
  · rw [tokenize_final_xml recs h]
    exact topCount_doc recs
  · rw [tokenize_final_xml recs h]
    exact stackAfter_doc recs
  · intro recs2 out written hw
    rw [simple_generate_xml] at hw
    cases hmk : makedirs (dirname out) with
    | error e =>
      rw [hmk] at hw
      exact absurd hw (by simp)
    | ok u =>
      rw [hmk] at hw
      simp only [Except.ok.injEq] at hw
      exact ⟨_, by rw [← hw]⟩

/-- C3 witness: the amended theorem applied to one benign record. -/
theorem claim_c3_single_root_witness :
    topCount (tokenize (final_xml [recIndia]).data) 0 = 1 ∧
    stackAfter (tokenize (final_xml [recIndia]).data) [] = some [] := by
  have h := claim_c3_single_root [recIndia] (by decide)
  exact ⟨h.2.1, h.2.2.1⟩

/-- A second well-behaved record for the two-record counterexample. -/
def recAland : CountryRecord :=
  { name := some
      { official := some "Landskapet"
        common := some "Aland"
        nativeName := some [("swe", { official := some "Landskapet", common := some "Aland" })] }
    currencies := some [("EUR", { name := some "Euro", symbol := some "E" })]
    cca2 := some "AX" }

/-- A record whose `cca2` value smuggles markup that closes and reopens the
root element. -/
def recInjRoot : CountryRecord :=
  { name := none
    currencies := none
    cca2 := some
      "x</Code></Countries></CountriesCollection><CountriesCollection><Countries><Code>y" }

set_option maxRecDepth 65536 in
/-- C3 counterexample: with two records the simple generator's written
document has two top-level elements (its `<root>` wrapper is stripped and
the minidom pretty-print always fails), so it is not a single-rooted
document; and for the improved generator an adversarial field value breaks
the single-root property as well. -/
theorem claim_c3_no_single_root_counterexample :
    topCount (tokenize ((simple_generate_xml [recAland, recIndia]
        "output/countries.xml").toOption.getD ("", "")).2.data) 0 = 2 ∧
    topCount (tokenize (final_xml [recInjRoot]).data) 0 = 2 := by
  decide

/-!  C2. -/

/-- C2 (amended): for every run that reaches the writing stage with a
non-empty fetched-record list, if no extracted field value contains `&`,
`<` or `>`, then re-parsing the written document counts exactly one
`Countries` element per fetched record, and the validation layer reports
success with that count. -/
theorem claim_c2_roundtrip_count (api : String → ApiOutcome) (names : List String)
    (out : String) (recs : List CountryRecord)
    (hf : (fetch_country_data api names).2 = .ok recs)
    (hne : recs ≠ [])
    (hd : dirname out ≠ "")
    (hp : test_api_connectivity api = true)
    (hb : ∀ r ∈ recs, benignExtract (extract_xml_data r)) :
    parseCountriesCount (final_xml recs) = some recs.length ∧
    (generate_xml_with_validation api names out).success = true ∧
    (generate_xml_with_validation api names out).countries_processed = recs.length := by
  have hparse := parse_final_xml recs hb
  have hgen : generate_countries_xml api names out = .ok (some (out, final_xml recs)) := by
    simp [generate_countries_xml, hf, hne, generate_formatted_xml, makedirs, hd]
  refine ⟨hparse, ?_, ?_⟩ <;>
    simp [generate_xml_with_validation, hp, hgen, hparse]

/-- C2 witness: the amended theorem applied to a one-record run. -/
theorem claim_c2_roundtrip_count_witness :
    parseCountriesCount (final_xml [recIndia]) = some 1 ∧
    (generate_xml_with_validation (fun _ => ApiOutcome.records [recIndia]) ["india"]
      "output/countries.xml").success = true ∧
    (generate_xml_with_validation (fun _ => ApiOutcome.records [recIndia]) ["india"]
      "output/countries.xml").countries_processed = 1 := by
  have h := claim_c2_roundtrip_count (fun _ => ApiOutcome.records [recIndia]) ["india"]
    "output/countries.xml" [recIndia] rfl (by decide) (by decide) rfl (by decide)
  exact ⟨h.1, h.2.1, h.2.2⟩

/-- A record whose official name smuggles a self-closing `Countries`
element. -/
def recInjCount : CountryRecord :=
  { name := some { official := some "<Countries/>", common := none, nativeName := none }
    currencies := none
    cca2 := none }

/-- API oracle for the C2 counterexample: the name `x` resolves to the
record with injected markup. -/
def apiInj : String → ApiOutcome := fun url =>
  if url = countryUrl "x" then .records [recInjCount] else .records []

set_option maxRecDepth 65536 in
/-- C2 counterexample: one successfully fetched record whose official name
contains `<Countries/>`; the formatter writes it unescaped, the validation
re-parse succeeds (the document is still balanced) and counts two
`Countries` elements for one fetched record. -/
theorem claim_c2_injected_markup_inflates_count :
    (fetch_country_data apiInj ["x"]).2 = .ok [recInjCount] ∧
    (generate_xml_with_validation apiInj ["x"] "output/countries.xml").success = true ∧
    (generate_xml_with_validation apiInj ["x"] "output/countries.xml").countries_processed
      = 2 := by
  refine ⟨rfl, ?_⟩
  decide

/-- C5 counterexample: with one record present but a bare output filename,
the pipeline does not return the output path — the `os.makedirs` call inside
the formatter raises (the C9 bug), so "returns the output path" does not
hold unconditionally for non-empty input. -/
theorem claim_c5_bare_filename_returns_no_path :
    generate_countries_xml (fun _ => ApiOutcome.records [recIndia]) ["india"]
      "my_countries.xml" = .error .fileNotFound := rfl
